import Mathlib

/-!
Verification of the pyWhat identification pipeline CLI (src/pywhat/what.py)
against its design specification.

Python strings are embedded as `List Char`; rarity scores as `ℚ`.
Definitions translated from `what.py` keep the source names.  Components of
the repository that the CLI imports but whose code is not part of the
source tree here (the `Filter` class, the `Distribution`/`identify`
pipeline, the sort-key helper) are modelled from the specification; each
such definition carries a doc comment saying so.
-/

namespace PyWhat

abbrev PyStr := List Char

def pstr (s : String) : PyStr := s.data

/-- Whitespace characters of Python string handling: the CPython
whitespace table (code points 9-13, 28-31, 32, 133, 160, 5760,
8192-8202, 8232, 8233, 8239, 8287 and 12288), shared by str.isspace,
str.strip with no argument, and the stripping done by float. -/
def isSpaceChar (c : Char) : Bool :=
  decide (9 ≤ c.toNat ∧ c.toNat ≤ 13) ||
  decide (28 ≤ c.toNat ∧ c.toNat ≤ 32) ||
  c.toNat == 133 || c.toNat == 160 || c.toNat == 5760 ||
  decide (8192 ≤ c.toNat ∧ c.toNat ≤ 8202) ||
  c.toNat == 8232 || c.toNat == 8233 || c.toNat == 8239 ||
  c.toNat == 8287 || c.toNat == 12288

/-- Embedding of Python `str.isspace`: true iff the string is nonempty and
every character is whitespace. -/
def pyIsSpace (s : PyStr) : Bool := !s.isEmpty && s.all isSpaceChar

/-- Embedding of Python `str.strip`: remove leading and trailing
whitespace. -/
def pyStrip (s : PyStr) : PyStr :=
  ((s.dropWhile isSpaceChar).reverse.dropWhile isSpaceChar).reverse

/-- Embedding of Python `str.split(sep)` for a one-character separator:
splits at every occurrence of the separator; the empty string yields one
empty part. -/
def pySplit (sep : Char) : PyStr → List PyStr
  | [] => [[]]
  | c :: rest =>
    if c == sep then [] :: pySplit sep rest
    else
      match pySplit sep rest with
      | [] => [[c]]
      | p :: ps => (c :: p) :: ps

def natOfDigits (ds : List Char) : Nat :=
  ds.foldl (fun n c => 10 * n + (c.toNat - 48)) 0

/-- Exponent part of a float literal: empty means exponent 0; otherwise
the letter e or E, an optional sign, and a nonempty digit run consuming
the rest of the string. -/
def parseExp : PyStr → Option Int
  | [] => some 0
  | c :: rest =>
    if c == 'e' || c == 'E' then
      let signed : Int × PyStr :=
        match rest with
        | '+' :: r => (1, r)
        | '-' :: r => (-1, r)
        | r => (1, r)
      let ds := signed.2.takeWhile Char.isDigit
      let rest2 := signed.2.dropWhile Char.isDigit
      if ds ≠ [] ∧ rest2 = [] then some (signed.1 * (natOfDigits ds : Int)) else none
    else none

/-- Decimal number: the value num / 10 ^ denPow.  Every finite float
literal denotes such a number; keeping the exact decimal form makes all
comparisons computable integer arithmetic. -/
structure PyFloat where
  num : Int
  denPow : Nat
deriving DecidableEq

/-- Comparison of two decimal numbers by cross-multiplication; the
denominators 10 ^ denPow are always positive, so this is the numeric
order. -/
def PyFloat.le (a b : PyFloat) : Bool :=
  decide (a.num * (10 : Int) ^ b.denPow ≤ b.num * (10 : Int) ^ a.denPow)

/-- Rational value of a decimal number. -/
def PyFloat.toRat (a : PyFloat) : ℚ := (a.num : ℚ) / (10 : ℚ) ^ a.denPow

/-- Value of a parsed float: a finite decimal, an infinity with its
sign, or nan. -/
inductive PyFloatVal where
  | fin (f : PyFloat)
  | inf (neg : Bool)
  | nan
deriving DecidableEq

/-- Python comparison on float values: nan compares false with
everything, negative infinity below and positive infinity above all
non-nan values, finite values by their decimal order. -/
def PyFloatVal.le : PyFloatVal → PyFloatVal → Bool
  | .nan, _ => false
  | _, .nan => false
  | .inf true, _ => true
  | _, .inf true => false
  | _, .inf false => true
  | .inf false, _ => false
  | .fin a, .fin b => a.le b

/-- Python strict comparison on float values; on nan both directions of
le are false, so lt is false, as in Python. -/
def PyFloatVal.lt (a b : PyFloatVal) : Bool := a.le b && !(b.le a)

/-- Validity of underscores in a numeric literal (PEP 515, as checked by
CPython before conversion): every underscore must have a digit
immediately before and after it.  The first argument is the preceding
character, if any. -/
def undOkAux : Option Char → PyStr → Bool
  | _, [] => true
  | prev, c :: rest =>
    if c = '_' then
      (match prev with
       | some p => p.isDigit
       | none => false) &&
      (match rest with
       | d :: _ => d.isDigit
       | [] => false) &&
      undOkAux (some c) rest
    else undOkAux (some c) rest

def removeUnd (s : PyStr) : PyStr := s.filter fun c => !(c == '_')

/-- Embedding of Python `float(s)`: optional surrounding whitespace (the
CPython whitespace table), an optional sign, then either the
case-insensitive special forms inf, infinity and nan, or a decimal
mantissa `digits`, `digits.`, `.digits` or `digits.digits` with an
optional exponent, with PEP-515 underscores allowed between digits and
stripped before conversion, as CPython does.  Finite values are kept as
exact decimals rather than rounded to binary; Unicode decimal digits
outside ASCII are not modelled. -/
def pyFloat? (s0 : PyStr) : Option PyFloatVal :=
  let s1 := pyStrip s0
  let signed : Bool × PyStr :=
    match s1 with
    | '+' :: r => (false, r)
    | '-' :: r => (true, r)
    | r => (false, r)
  let low := signed.2.map Char.toLower
  if low = pstr "inf" ∨ low = pstr "infinity" then some (.inf signed.1)
  else if low = pstr "nan" then some .nan
  else if undOkAux none signed.2 = false then none
  else
    let t := removeUnd signed.2
    let ip := t.takeWhile Char.isDigit
    let s3 := t.dropWhile Char.isDigit
    let frac : PyStr × PyStr :=
      match s3 with
      | '.' :: r => (r.takeWhile Char.isDigit, r.dropWhile Char.isDigit)
      | r => ([], r)
    if ip ++ frac.1 = [] then none
    else
      match parseExp frac.2 with
      | none => none
      | some e =>
        let mag : Int := (natOfDigits (ip ++ frac.1) : Int)
        let mant : Int := if signed.1 then -mag else mag
        some (.fin
          (if 0 ≤ e then ⟨mant * (10 : Int) ^ e.toNat, frac.1.length⟩
           else ⟨mant, frac.1.length + (-e).toNat⟩))

instance exceptDecEq {ε α : Type} [DecidableEq ε] [DecidableEq α] :
    DecidableEq (Except ε α) := fun x y =>
  match x, y with
  | .ok a, .ok b =>
    if h : a = b then isTrue (by rw [h]) else isFalse (by simp [h])
  | .error e, .error f =>
    if h : e = f then isTrue (by rw [h]) else isFalse (by simp [h])
  | .ok _, .error _ => isFalse (by simp)
  | .error _, .ok _ => isFalse (by simp)

/-- Error cases of the rarity-range parsing step of `create_filter`
(what.py lines 21-33). -/
inductive RarityErr where
  | badFormat
  | badFloat
deriving DecidableEq

/-- Handling of one rarity bound in `create_filter` (what.py lines
26-33): an entry is produced only when the part is nonempty and not
whitespace-only; otherwise the bound stays unset.  A set part that does
not parse as a float is a `ValueError` (what.py line 31). -/
def parsePart (p : PyStr) : Except RarityErr (Option PyFloatVal) :=
  if ¬ pyIsSpace p = true ∧ p ≠ [] then
    match pyFloat? p with
    | some q => .ok (some q)
    | none => .error .badFloat
  else .ok none

/-- Rarity-range parsing of `create_filter` (what.py lines 22-33): split
on the colon, demand exactly two parts, then handle each part. -/
def parseRarity (r : PyStr) :
    Except RarityErr (Option PyFloatVal × Option PyFloatVal) :=
  match pySplit ':' r with
  | [p0, p1] =>
    match parsePart p0 with
    | .error e => .error e
    | .ok mn =>
      match parsePart p1 with
      | .error e => .error e
      | .ok mx => .ok (mn, mx)
  | _ => .error .badFormat

/-- The `filters_dict` assembled by `create_filter` (what.py lines
20-37): optional rarity bounds, and optional include/exclude tag lists. -/
structure FiltersDict where
  minRarity : Option PyFloatVal := none
  maxRarity : Option PyFloatVal := none
  tags : Option (List PyStr) := none
  excludeTags : Option (List PyStr) := none
deriving DecidableEq

/-- Comma-splitting plus per-tag strip applied to the include and exclude
lists (what.py lines 34-37). -/
def splitTags (s : PyStr) : List PyStr := (pySplit ',' s).map pyStrip

/-- The dictionary-building part of `create_filter` (what.py lines
20-37). -/
def buildFiltersDict (rarity inc exc : Option PyStr) :
    Except RarityErr FiltersDict :=
  match (match rarity with | some r => parseRarity r | none => .ok (none, none)) with
  | .error e => .error e
  | .ok bounds =>
    .ok
      { minRarity := bounds.1
        maxRarity := bounds.2
        tags := inc.map splitTags
        excludeTags := exc.map splitTags }

/-- Modelled from the spec: the error conditions of Filter construction
(section 7); the Filter class itself is not part of the source tree here. -/
inductive FilterError where
  | invalidTag
  | invalidRange
deriving DecidableEq

/-- Modelled from the spec: the Filter record of section 4.4 — a rarity
range whose omitted bounds default to 0 and 1, an optional include-tag
set and an optional exclude-tag set.  The Filter class is not part of
the source tree here. -/
structure Filter where
  minRarity : PyFloatVal
  maxRarity : PyFloatVal
  tags : Option (List PyStr)
  excludeTags : Option (List PyStr)
deriving DecidableEq

def vocabMem (vocab : List PyStr) (t : PyStr) : Bool := decide (t ∈ vocab)

/-- Modelled from the spec: Filter construction (sections 4.4 and 7).
Every referenced tag must be in the catalog vocabulary, else InvalidTag;
a range whose min is greater than its max (Python comparison, so a nan
bound never triggers it) is InvalidRange; omitted bounds default to 0
and 1.  The Filter class is not part of the source tree here. -/
def Filter.build (vocab : List PyStr) (fd : FiltersDict) : Except FilterError Filter :=
  if ((fd.tags.getD []).all (vocabMem vocab) &&
      (fd.excludeTags.getD []).all (vocabMem vocab)) = true then
    let mn := fd.minRarity.getD (.fin ⟨0, 0⟩)
    let mx := fd.maxRarity.getD (.fin ⟨1, 0⟩)
    if PyFloatVal.lt mx mn then .error .invalidRange
    else .ok ⟨mn, mx, fd.tags, fd.excludeTags⟩
  else .error .invalidTag

/-- Error messages printed by what.py before exiting with status 1. -/
inductive ErrMsg where
  | rarityFormat
  | rarityFloat
  | invalidTags
  | invalidKey
deriving DecidableEq

/-- Outcome of a CLI-level operation: a value, a printed message followed
by sys.exit(status), or an exception the CLI does not catch. -/
inductive CliResult (α : Type) where
  | ok (val : α)
  | exit (msg : ErrMsg) (status : Nat)
  | uncaught (err : FilterError)
deriving DecidableEq

/-- Embedding of `create_filter` (what.py lines 19-48): build the
filters dictionary — exiting with status 1 on a malformed rarity range
or a bad float — then construct the Filter, turning InvalidTag into a
printed message and exit status 1; InvalidRange is not caught there. -/
def create_filter (vocab : List PyStr) (rarity inc exc : Option PyStr) :
    CliResult Filter :=
  match buildFiltersDict rarity inc exc with
  | .error .badFormat => .exit .rarityFormat 1
  | .error .badFloat => .exit .rarityFloat 1
  | .ok fd =>
    match Filter.build vocab fd with
    | .error .invalidTag => .exit .invalidTags 1
    | .error .invalidRange => .uncaught .invalidRange
    | .ok f => .ok f

/-- Record of one classified match (spec section 3): the producing
signature's name and tag set, its rarity, the matched text with its span
and origin blob, and the bounded flag from the Boundary Classifier. -/
structure ClassifiedMatch where
  name : PyStr
  matched : PyStr
  spanStart : Nat
  spanStop : Nat
  origin : PyStr
  tags : List PyStr
  rarity : PyFloat
  bounded : Bool
deriving DecidableEq

/-- Modelled from the spec: Filter acceptance (section 4.4) — rarity in
range, a nonempty include set must intersect the tag set, a nonempty
exclude set must not.  The Filter class is not part of the source tree
here. -/
def Filter.accepts (f : Filter) (m : ClassifiedMatch) : Bool :=
  f.minRarity.le (.fin m.rarity) && (PyFloatVal.fin m.rarity).le f.maxRarity &&
  (match f.tags with
   | none => true
   | some I => I.isEmpty || m.tags.any fun t => decide (t ∈ I)) &&
  (match f.excludeTags with
   | none => true
   | some E => E.isEmpty || !(m.tags.any fun t => decide (t ∈ E)))

/-- The Distribution object built by main (what.py line 160) carries the
bounded-match filter. -/
structure Distribution where
  boundedFilter : Filter

/-- Modelled from the spec: the Distribution stage (section 4.5) —
partition by the bounded flag, filter each partition with its own
Filter, and return the union, bounded-partition survivors first, each
partition keeping its emission order.  The identifier module is not part
of the source tree here. -/
def distApply (ms : List ClassifiedMatch) (bounded bl : Filter) :
    List ClassifiedMatch :=
  (ms.filter fun m => m.bounded && bounded.accepts m) ++
  (ms.filter fun m => !m.bounded && bl.accepts m)

/-- Sort keys of the CLI (what.py help text lines 127-135): name, rarity,
matched and none. -/
inductive SortKey where
  | none
  | name
  | rarity
  | matched
deriving DecidableEq

/-- Lexicographic comparison of strings by character order. -/
def strLe : PyStr → PyStr → Bool
  | [], _ => true
  | _ :: _, [] => false
  | a :: as, b :: bs => if a = b then strLe as bs else decide (a < b)

/-- Comparator attached to every sort key. -/
def keyLe : SortKey → ClassifiedMatch → ClassifiedMatch → Bool
  | .none, _, _ => true
  | .name, a, b => strLe a.name b.name
  | .rarity, a, b => a.rarity.le b.rarity
  | .matched, a, b => strLe a.matched b.matched

/-- Modelled from the spec: the Sorter (section 4.6) — no reordering for
key none, a stable sort by the chosen comparator otherwise, and a final
reversal when the reverse flag is set.  The identifier module is not
part of the source tree here. -/
def sortMatches (ms : List ClassifiedMatch) (k : SortKey) (rev : Bool) :
    List ClassifiedMatch :=
  let s := if k = SortKey.none then ms else ms.mergeSort (keyLe k)
  if rev then s.reverse else s

/-- Modelled from the spec: the key-name lookup of the helper module
(CLI help text, what.py lines 127-135) — the names name, rarity, matched
and none, anything else a ValueError.  The helper module is not part of
the source tree here. -/
def str_to_key (s : PyStr) : Except Unit SortKey :=
  if s = pstr "name" then .ok .name
  else if s = pstr "rarity" then .ok .rarity
  else if s = pstr "matched" then .ok .matched
  else if s = pstr "none" then .ok SortKey.none
  else .error ()

/-- The Identifier held by a What_Object (what.py line 183): the
Distribution it was built with, together with the matching machinery —
modelled as a function from a blob to its classified matches, since the
catalog and regex engine are external collaborators (spec sections 1 and
4.2). -/
structure Identifier where
  dist : Distribution
  matcher : PyStr → List ClassifiedMatch

/-- Modelled from the spec: the identify pipeline (section 6) — match,
distribute through the two filters, sort.  The identifier module is not
part of the source tree here; the only_text flag concerns file
traversal, which is outside the core. -/
def Identifier.identify (i : Identifier) (text : PyStr) (only_text : Bool)
    (key : SortKey) (reverse : Bool) (boundaryless : Filter) :
    List ClassifiedMatch :=
  sortMatches (distApply (i.matcher text) i.dist.boundedFilter boundaryless)
    key reverse

/-- Embedding of What_Object (what.py lines 181-197): it holds only its
Identifier. -/
structure What_Object where
  id : Identifier

/-- Embedding of What_Object.what_is_this (what.py lines 185-197),
threading the object state explicitly: the call returns its result and
the object as left behind by the call. -/
def What_Object.what_is_this (w : What_Object) (text : PyStr)
    (only_text : Bool) (key : SortKey) (reverse : Bool)
    (boundaryless : Filter) : List ClassifiedMatch × What_Object :=
  (w.id.identify text only_text key reverse boundaryless, w)

/-- Click default of the --rarity option (what.py line 69). -/
def rarityDefault : PyStr := pstr "0.1:1"

/-- Click default of the --boundaryless-rarity option (what.py line 80). -/
def boundarylessRarityDefault : PyStr := pstr "0.1:1"

/-- Embedding of main (what.py lines 88-178): build the bounded-filter
Distribution, build the boundaryless filter, resolve the sort key, run
what_is_this.  The catalog vocabulary and the matching machinery are
passed in as the external collaborators they are. -/
def main (vocab : List PyStr) (matcher : PyStr → List ClassifiedMatch)
    (text_input : PyStr) (rarity inc exc : Option PyStr) (only_text : Bool)
    (key : Option PyStr) (reverse : Bool) (brar binc bexc : Option PyStr) :
    CliResult (List ClassifiedMatch) :=
  match create_filter vocab rarity inc exc with
  | .exit m s => .exit m s
  | .uncaught e => .uncaught e
  | .ok bf =>
    match create_filter vocab brar binc bexc with
    | .exit m s => .exit m s
    | .uncaught e => .uncaught e
    | .ok blf =>
      let keyRes : Except Unit SortKey :=
        match key with
        | Option.none => .ok SortKey.none
        | Option.some ks => str_to_key ks
      match keyRes with
      | .error _ => .exit .invalidKey 1
      | .ok k =>
        .ok ((What_Object.mk ⟨⟨bf⟩, matcher⟩).what_is_this text_input
          only_text k reverse blf).1

/-- Joining of parts with a one-character separator; inverse of pySplit
on separator-free parts. -/
def intercalChar (sep : Char) : List PyStr → PyStr
  | [] => []
  | [p] => p
  | p :: ps => p ++ sep :: intercalChar sep ps

/-! Helper lemmas about the string utilities and comparators. -/

theorem pySplit_no_sep {sep : Char} : ∀ {p : PyStr}, sep ∉ p → pySplit sep p = [p]
  | [], _ => rfl
  | c :: rest, h => by
    have hc : (c == sep) = false := by
      simp only [beq_eq_false_iff_ne, ne_eq]
      exact fun hcs => h (hcs ▸ List.mem_cons_self c rest)
    have ih := pySplit_no_sep (fun hm => h (List.mem_cons_of_mem c hm))
    simp [pySplit, hc, ih]

theorem pySplit_append {sep : Char} :
    ∀ (p0 rest : PyStr), sep ∉ p0 →
      pySplit sep (p0 ++ sep :: rest) = p0 :: pySplit sep rest
  | [], rest, _ => by simp [pySplit]
  | c :: p0, rest, h => by
    have hc : (c == sep) = false := by
      simp only [beq_eq_false_iff_ne, ne_eq]
      exact fun hcs => h (hcs ▸ List.mem_cons_self c p0)
    have ih := pySplit_append p0 rest (fun hm => h (List.mem_cons_of_mem c hm))
    simp [pySplit, hc, ih]

theorem pySplit_intercal {sep : Char} :
    ∀ (ps : List PyStr), ps ≠ [] → (∀ p ∈ ps, sep ∉ p) →
      pySplit sep (intercalChar sep ps) = ps
  | [], h, _ => absurd rfl h
  | [p], _, hall => by
    simp only [intercalChar]
    exact pySplit_no_sep (hall p (List.mem_singleton.mpr rfl))
  | p :: q :: ps, _, hall => by
    have h1 : sep ∉ p := hall p (List.mem_cons_self _ _)
    have ih := pySplit_intercal (q :: ps) (by simp)
      (fun x hx => hall x (List.mem_cons_of_mem p hx))
    simp only [intercalChar]
    rw [pySplit_append _ _ h1, ih]

theorem strLe_total : ∀ a b : PyStr, (strLe a b || strLe b a) = true
  | [], b => by simp [strLe]
  | a :: as, [] => by simp [strLe]
  | a :: as, b :: bs => by
    by_cases hab : a = b
    · subst hab
      simpa [strLe] using strLe_total as bs
    · rcases lt_or_gt_of_ne hab with h | h
      · simp [strLe, hab, Ne.symm hab, h]
      · simp [strLe, hab, Ne.symm hab, h]

theorem strLe_trans :
    ∀ a b c : PyStr, strLe a b = true → strLe b c = true → strLe a c = true
  | [], _, _, _, _ => rfl
  | a :: as, [], c, hab, _ => by simp [strLe] at hab
  | a :: as, b :: bs, [], _, hbc => by simp [strLe] at hbc
  | a :: as, b :: bs, c :: cs, hab, hbc => by
    by_cases h1 : a = b <;> by_cases h2 : b = c
    · subst h1; subst h2
      simp only [strLe, if_pos rfl] at *
      exact strLe_trans as bs cs hab hbc
    · subst h1
      simp only [strLe, if_pos rfl, if_neg h2] at *
      simp [h2, hbc]
    · subst h2
      simp only [strLe, if_pos rfl, if_neg h1] at *
      simp [h1, hab]
    · simp only [strLe, if_neg h1, if_neg h2, decide_eq_true_eq] at hab hbc
      have hac : a < c := lt_trans hab hbc
      have hne : a ≠ c := ne_of_lt hac
      simp [strLe, hne, hac]

theorem PyFloat.le_iff_toRat (a b : PyFloat) :
    a.le b = true ↔ a.toRat ≤ b.toRat := by
  unfold PyFloat.le PyFloat.toRat
  rw [decide_eq_true_iff,
    div_le_div_iff₀ (by positivity) (by positivity)]
  constructor <;> intro h <;> exact_mod_cast h

theorem pyLe_total (a b : PyFloat) : (a.le b || b.le a) = true := by
  rcases le_total a.toRat b.toRat with h | h
  · simp [(PyFloat.le_iff_toRat a b).mpr h]
  · simp [(PyFloat.le_iff_toRat b a).mpr h]

theorem pyLe_trans {a b c : PyFloat} (h1 : a.le b = true) (h2 : b.le c = true) :
    a.le c = true :=
  (PyFloat.le_iff_toRat a c).mpr
    (le_trans ((PyFloat.le_iff_toRat a b).mp h1) ((PyFloat.le_iff_toRat b c).mp h2))

theorem keyLe_trans (k : SortKey) :
    ∀ a b c : ClassifiedMatch, keyLe k a b → keyLe k b c → keyLe k a c := by
  intro a b c hab hbc
  cases k with
  | none => rfl
  | name => exact strLe_trans _ _ _ hab hbc
  | rarity => exact pyLe_trans hab hbc
  | matched => exact strLe_trans _ _ _ hab hbc

theorem keyLe_total (k : SortKey) :
    ∀ a b : ClassifiedMatch, keyLe k a b || keyLe k b a := by
  intro a b
  cases k with
  | none => rfl
  | name => exact strLe_total _ _
  | rarity => exact pyLe_total _ _
  | matched => exact strLe_total _ _

/-! Claim theorems. -/

/-- C1: a match classified boundaryless survives the Distribution stage
under one bounded filter iff it survives under any other bounded filter
with the same boundaryless filter; only the boundaryless filter governs
its survival. -/
theorem distribution_independence (ms : List ClassifiedMatch)
    (bf1 bf2 blf : Filter) (m : ClassifiedMatch) (h : m.bounded = false) :
    m ∈ distApply ms bf1 blf ↔ m ∈ distApply ms bf2 blf := by
  simp [distApply, List.mem_append, List.mem_filter, h]

/-- Witness for C1 at a concrete boundaryless match and two bounded
filters with different rarity ranges. -/
theorem distribution_independence_w :
    (⟨pstr "n", pstr "t", 0, 1, pstr "in", [], ⟨1, 1⟩, false⟩ : ClassifiedMatch) ∈
        distApply [⟨pstr "n", pstr "t", 0, 1, pstr "in", [], ⟨1, 1⟩, false⟩]
          ⟨.fin ⟨0, 0⟩, .fin ⟨1, 0⟩, none, none⟩
          ⟨.fin ⟨0, 0⟩, .fin ⟨1, 0⟩, none, none⟩ ↔
      (⟨pstr "n", pstr "t", 0, 1, pstr "in", [], ⟨1, 1⟩, false⟩ : ClassifiedMatch) ∈
        distApply [⟨pstr "n", pstr "t", 0, 1, pstr "in", [], ⟨1, 1⟩, false⟩]
          ⟨.fin ⟨9, 1⟩, .fin ⟨1, 0⟩, none, none⟩
          ⟨.fin ⟨0, 0⟩, .fin ⟨1, 0⟩, none, none⟩ :=
  distribution_independence _ _ _ _ _ rfl

/-- C4: a Filter whose include and exclude tag sets share a tag rejects
every match whose tag set intersects both; the exclude set takes
precedence. -/
theorem exclude_overrides_include (f : Filter) (m : ClassifiedMatch)
    (I E : List PyStr) (hI : f.tags = some I) (hE : f.excludeTags = some E)
    (hshare : ∃ t, t ∈ I ∧ t ∈ E)
    (hmI : ∃ t, t ∈ m.tags ∧ t ∈ I)
    (hmE : ∃ t, t ∈ m.tags ∧ t ∈ E) :
    f.accepts m = false := by
  obtain ⟨t, htm, htE⟩ := hmE
  have hne : E.isEmpty = false := by
    cases E with
    | nil => exact absurd htE (List.not_mem_nil t)
    | cons x xs => rfl
  have hany : (m.tags.any fun s => decide (s ∈ E)) = true :=
    List.any_eq_true.mpr ⟨t, htm, by simpa⟩
  simp [Filter.accepts, hE, hne, hany]

/-- Witness for C4: include and exclude both contain the tag aws, the
match carries it, and the filter rejects the match. -/
theorem exclude_overrides_include_w :
    Filter.accepts
      ⟨.fin ⟨0, 0⟩, .fin ⟨1, 0⟩, some [pstr "aws"], some [pstr "aws"]⟩
      ⟨pstr "n", pstr "t", 0, 1, pstr "in", [pstr "aws"], ⟨1, 1⟩, true⟩ = false :=
  exclude_overrides_include _ _ [pstr "aws"] [pstr "aws"] rfl rfl
    ⟨pstr "aws", by decide, by decide⟩
    ⟨pstr "aws", by decide, by decide⟩
    ⟨pstr "aws", by decide, by decide⟩

/-- C5: sorting with key none and reverse false is the identity, with
key none and reverse true the exact reversal; for every key, a tie
(a sublist on which the key comparator holds both ways pairwise) keeps
its prior Distribution order in the sorted output. -/
theorem sort_stability_spec (ms : List ClassifiedMatch) :
    sortMatches ms SortKey.none false = ms ∧
    sortMatches ms SortKey.none true = ms.reverse ∧
    ∀ (k : SortKey) (c : List ClassifiedMatch),
      c.Pairwise (fun a b => keyLe k a b = true ∧ keyLe k b a = true) →
      c.Sublist ms → c.Sublist (sortMatches ms k false) := by
  refine ⟨by simp [sortMatches], by simp [sortMatches], ?_⟩
  intro k c hpw hsub
  by_cases hk : k = SortKey.none
  · subst hk
    simpa [sortMatches] using hsub
  · simp only [sortMatches, if_neg hk, if_neg Bool.false_ne_true]
    exact List.sublist_mergeSort (keyLe_trans k) (keyLe_total k)
      (hpw.imp fun h => h.1) hsub

/-- Witness for C5: two matches with the same name keep their order in a
sort by name. -/
theorem sort_stability_spec_w :
    List.Sublist
      [⟨pstr "n", pstr "a", 0, 1, pstr "in", [], ⟨1, 1⟩, true⟩,
       (⟨pstr "n", pstr "b", 0, 1, pstr "in", [], ⟨1, 1⟩, true⟩ : ClassifiedMatch)]
      (sortMatches
        [⟨pstr "n", pstr "a", 0, 1, pstr "in", [], ⟨1, 1⟩, true⟩,
         ⟨pstr "n", pstr "b", 0, 1, pstr "in", [], ⟨1, 1⟩, true⟩]
        SortKey.name false) :=
  (sort_stability_spec _).2.2 SortKey.name _
    (by simp [List.pairwise_cons]; decide) (List.Sublist.refl _)

/-- C6: what_is_this is a pure function of its inputs: a second call on
the object left behind by the first returns an identical ordered result,
and the object carries no state across calls. -/
theorem identify_idempotent (w : What_Object) (text : PyStr)
    (only_text : Bool) (key : SortKey) (reverse : Bool) (bl : Filter) :
    (w.what_is_this text only_text key reverse bl).1 =
      ((w.what_is_this text only_text key reverse bl).2.what_is_this
        text only_text key reverse bl).1 ∧
    (w.what_is_this text only_text key reverse bl).2 = w ∧
    ((w.what_is_this text only_text key reverse bl).2.what_is_this
      text only_text key reverse bl).2 = w :=
  ⟨rfl, rfl, rfl⟩

/-- C2: a filters dictionary whose include or exclude tag list holds a
tag outside the catalog vocabulary makes Filter construction fail with
InvalidTag, makes create_filter print the tag message and exit with
status 1, and makes the whole CLI run exit with status 1 before any
identification call. -/
theorem invalid_tag_rejected (vocab : List PyStr) (rarity inc exc : Option PyStr)
    (fd : FiltersDict) (hfd : buildFiltersDict rarity inc exc = .ok fd)
    (t : PyStr) (ht : t ∈ fd.tags.getD [] ∨ t ∈ fd.excludeTags.getD [])
    (hout : t ∉ vocab) :
    Filter.build vocab fd = .error .invalidTag ∧
    create_filter vocab rarity inc exc = .exit .invalidTags 1 ∧
    ∀ matcher text only_text key reverse brar binc bexc,
      main vocab matcher text rarity inc exc only_text key reverse
        brar binc bexc = .exit .invalidTags 1 := by
  have hcond : ((fd.tags.getD []).all (vocabMem vocab) &&
      (fd.excludeTags.getD []).all (vocabMem vocab)) = false := by
    rcases ht with h | h
    · have hall : (fd.tags.getD []).all (vocabMem vocab) = false :=
        List.all_eq_false.mpr ⟨t, h, by simp [vocabMem, hout]⟩
      simp [hall]
    · have hall : (fd.excludeTags.getD []).all (vocabMem vocab) = false :=
        List.all_eq_false.mpr ⟨t, h, by simp [vocabMem, hout]⟩
      simp [hall]
  have hbuild : Filter.build vocab fd = .error .invalidTag := by
    simp [Filter.build, hcond]
  have hcf : create_filter vocab rarity inc exc = .exit .invalidTags 1 := by
    simp [create_filter, hfd, hbuild]
  refine ⟨hbuild, hcf, ?_⟩
  intro matcher text only_text key reverse brar binc bexc
  simp [main, hcf]

/-- Witness for C2: the include tag aws is outside the vocabulary, so the
CLI exits with status 1. -/
theorem invalid_tag_rejected_w :
    create_filter [pstr "credentials"] Option.none (some (pstr "aws"))
      Option.none = .exit .invalidTags 1 :=
  (invalid_tag_rejected [pstr "credentials"] Option.none (some (pstr "aws"))
    Option.none ⟨none, none, some [pstr "aws"], none⟩ (by decide)
    (pstr "aws") (by decide) (by decide)).2.1

/-- C3: a filters dictionary carrying rarity bounds a and b with a
greater than b (as numbers) makes Filter construction fail with
InvalidRange, and create_filter propagates that exception uncaught
instead of returning a Filter. -/
theorem invalid_range_rejected (vocab : List PyStr) (fd : FiltersDict)
    (a b : PyFloat) (hmin : fd.minRarity = some (.fin a))
    (hmax : fd.maxRarity = some (.fin b))
    (hab : b.toRat < a.toRat)
    (htags : ((fd.tags.getD []).all (vocabMem vocab) &&
      (fd.excludeTags.getD []).all (vocabMem vocab)) = true) :
    Filter.build vocab fd = .error .invalidRange ∧
    ∀ rarity inc exc, buildFiltersDict rarity inc exc = .ok fd →
      create_filter vocab rarity inc exc = .uncaught .invalidRange := by
  have h1 : b.le a = true := (PyFloat.le_iff_toRat b a).mpr (le_of_lt hab)
  have h2 : a.le b = false := by
    cases h : a.le b
    · rfl
    · exact absurd ((PyFloat.le_iff_toRat a b).mp h) (not_le.mpr hab)
  have hlt : PyFloatVal.lt (.fin b) (.fin a) = true := by
    simp [PyFloatVal.lt, PyFloatVal.le, h1, h2]
  have hbuild : Filter.build vocab fd = .error .invalidRange := by
    simp [Filter.build, htags, hmin, hmax, hlt]
  refine ⟨hbuild, ?_⟩
  intro rarity inc exc hfd
  simp [create_filter, hfd, hbuild]

/-- Witness for C3: the range 1:0.5 escapes create_filter as an uncaught
InvalidRange at Filter-construction time. -/
theorem invalid_range_rejected_w :
    create_filter [] (some (pstr "1:0.5")) Option.none Option.none =
      .uncaught .invalidRange :=
  (invalid_range_rejected []
    ⟨some (.fin ⟨1, 0⟩), some (.fin ⟨5, 1⟩), none, none⟩
    ⟨1, 0⟩ ⟨5, 1⟩ rfl rfl
    (by norm_num [PyFloat.toRat]) (by decide)).2
    (some (pstr "1:0.5")) Option.none Option.none (by decide)

/-- C8: the click default rarity string for both the bounded and the
boundaryless filter is 0.1:1, and each of the two default filters it
produces has minimum rarity one tenth and maximum rarity one. -/
theorem default_rarity_range (vocab : List PyStr) :
    create_filter vocab (some rarityDefault) Option.none Option.none =
      .ok ⟨.fin ⟨1, 1⟩, .fin ⟨1, 0⟩, none, none⟩ ∧
    create_filter vocab (some boundarylessRarityDefault) Option.none
      Option.none = .ok ⟨.fin ⟨1, 1⟩, .fin ⟨1, 0⟩, none, none⟩ ∧
    PyFloat.toRat ⟨1, 1⟩ = 1 / 10 ∧ PyFloat.toRat ⟨1, 0⟩ = 1 := by
  have hfd : buildFiltersDict (some rarityDefault) Option.none Option.none =
      .ok ⟨some (.fin ⟨1, 1⟩), some (.fin ⟨1, 0⟩), none, none⟩ := by decide
  have hlt : PyFloatVal.lt (.fin ⟨1, 0⟩) (.fin ⟨1, 1⟩) = false := by decide
  have hcf : create_filter vocab (some rarityDefault) Option.none Option.none =
      .ok ⟨.fin ⟨1, 1⟩, .fin ⟨1, 0⟩, none, none⟩ := by
    simp [create_filter, hfd, Filter.build, hlt]
  exact ⟨hcf, hcf, by norm_num [PyFloat.toRat], by norm_num [PyFloat.toRat]⟩

/-- C9: a rarity bound whose text is empty or whitespace-only is treated
as omitted, not as a parse error: its part contributes no entry, and in
a two-part range whose second part is blank the dictionary gets no
MaxRarity entry — the other part alone decides the outcome. -/
theorem blank_bound_omitted (p : PyStr) (hp : pyIsSpace p = true ∨ p = []) :
    parsePart p = .ok none ∧
    ∀ p0, ':' ∉ p0 → ':' ∉ p → ∀ inc exc,
      buildFiltersDict (some (p0 ++ ':' :: p)) inc exc =
        match parsePart p0 with
        | .error e => .error e
        | .ok mn => .ok ⟨mn, none, inc.map splitTags, exc.map splitTags⟩ := by
  have hpp : parsePart p = .ok none := by
    rcases hp with h | h
    · simp [parsePart, h]
    · simp [parsePart, h]
  refine ⟨hpp, ?_⟩
  intro p0 h0 hcp inc exc
  have hsplit : pySplit ':' (p0 ++ ':' :: p) = [p0, p] := by
    rw [pySplit_append p0 p h0, pySplit_no_sep hcp]
  have hpr : parseRarity (p0 ++ ':' :: p) =
      match parsePart p0 with
      | .error e => .error e
      | .ok mn => .ok (mn, none) := by
    unfold parseRarity
    rw [hsplit]
    cases h0r : parsePart p0 with
    | error e0 => simp [h0r]
    | ok mn => simp [h0r, hpp]
  cases h0r : parsePart p0 with
  | error e0 =>
    rw [h0r] at hpr
    simp [buildFiltersDict, hpr, h0r]
  | ok mn =>
    rw [h0r] at hpr
    simp [buildFiltersDict, hpr, h0r]

/-- Witness for C9: the range 0.5 colon (blank maximum) parses with only
a MinRarity entry, and a whitespace-only part is skipped. -/
theorem blank_bound_omitted_w :
    buildFiltersDict (some (pstr "0.5:")) Option.none Option.none =
      .ok ⟨some (.fin ⟨5, 1⟩), none, none, none⟩ ∧
    parsePart (pstr " ") = .ok none := by
  constructor
  · have h := (blank_bound_omitted [] (Or.inr rfl)).2 (pstr "0.5")
      (by decide) (by decide) Option.none Option.none
    have he : pstr "0.5:" = pstr "0.5" ++ ':' :: ([] : PyStr) := by decide
    rw [he, h]
    decide
  · exact (blank_bound_omitted (pstr " ") (Or.inl (by decide))).1

/-- C10: every tag in a comma-separated include list is stripped of
surrounding whitespace, so two include lists whose parts agree after
stripping — in particular lists differing only in whitespace around the
commas — build the same Filter. -/
theorem tags_whitespace_equiv (vocab : List PyStr) (rarity exc : Option PyStr)
    (xs ys : List PyStr)
    (hx : ∀ p ∈ xs, ',' ∉ p) (hy : ∀ p ∈ ys, ',' ∉ p)
    (hxne : xs ≠ []) (hyne : ys ≠ [])
    (h : xs.map pyStrip = ys.map pyStrip) :
    splitTags (intercalChar ',' xs) = xs.map pyStrip ∧
    create_filter vocab rarity (some (intercalChar ',' xs)) exc =
      create_filter vocab rarity (some (intercalChar ',' ys)) exc := by
  have e1 : splitTags (intercalChar ',' xs) = xs.map pyStrip := by
    simp [splitTags, pySplit_intercal xs hxne hx]
  have e2 : splitTags (intercalChar ',' ys) = ys.map pyStrip := by
    simp [splitTags, pySplit_intercal ys hyne hy]
  have heq : splitTags (intercalChar ',' xs) = splitTags (intercalChar ',' ys) := by
    rw [e1, e2, h]
  refine ⟨e1, ?_⟩
  simp [create_filter, buildFiltersDict, heq]

/-- Witness for C10: the include lists aws, credentials with and without
a space after the comma build the same Filter. -/
theorem tags_whitespace_equiv_w :
    create_filter [pstr "aws", pstr "credentials"] Option.none
      (some (intercalChar ',' [pstr "aws", pstr " credentials"]))
      Option.none =
    create_filter [pstr "aws", pstr "credentials"] Option.none
      (some (intercalChar ',' [pstr "aws", pstr "credentials"]))
      Option.none :=
  (tags_whitespace_equiv [pstr "aws", pstr "credentials"] Option.none
    Option.none [pstr "aws", pstr " credentials"]
    [pstr "aws", pstr "credentials"] (by decide) (by decide)
    (by decide) (by decide) (by decide)).2

end PyWhat
